import Mathlib

/-!
mcgorcon: packet codec and session sequencing.

A shallow embedding of `src/mcgorcon.go`.

* Go byte slices and Go strings are lists of bytes (`Fin 256`): a Go string is an
  arbitrary byte sequence and `[]byte(s)` / `string(b)` copy it unchanged.
* `int32` values are integers; every place where the source computes in `int32`
  goes through `wrapInt32`.
* A Go call either returns or panics: `Outcome` records which, and the panic value.
  None of the embedded functions has an error result in the source.
* `io.Reader` is a finite list of pending bytes together with the way the stream
  ends (end of file, or a transport fault); `net.Conn` adds the bytes written so
  far and the number of bytes the peer still accepts.
-/

namespace Mcgorcon

/-- One octet. -/
abbrev Byte := Fin 256

/-- Conversion of an integer to Go `int32` (two's complement wrap-around). -/
def wrapInt32 (v : Int) : Int := (v + 2147483648) % 4294967296 - 2147483648

/-- Membership in the range of Go `int32`. -/
def isInt32 (v : Int) : Prop := -2147483648 ≤ v ∧ v < 2147483648

instance (v : Int) : Decidable (isInt32 v) := by unfold isInt32; infer_instance

/-- The byte `byte(u >> (8*k))` of a natural number. -/
def byteAt (u k : Nat) : Byte := ⟨u / 256 ^ k % 256, Nat.mod_lt _ (by decide)⟩

/-- The bytes `binary.Write(&buf, binary.LittleEndian, v)` appends for an `int32`:
`LittleEndian.PutUint32(b, uint32(v))`. -/
def putInt32LE (v : Int) : List Byte :=
  let u := (v % 4294967296).toNat
  [byteAt u 0, byteAt u 1, byteAt u 2, byteAt u 3]

/-- Little-endian value of a byte sequence (`LittleEndian.Uint32` on four bytes). -/
def leNat : List Byte → Nat
  | [] => 0
  | b :: bs => b.val + 256 * leNat bs

/-- Four little-endian bytes read as `int32(LittleEndian.Uint32(b))`. -/
def getInt32LE (b : List Byte) : Int := wrapInt32 (leNat (b.take 4))

/-- The `header` struct of the source; `packetType` is an `int32`. -/
structure header where
  Size : Int
  RequestID : Int
  PacketType : Int
deriving DecidableEq, Repr

def packetTypeCommand : Int := 2
def packetTypeAuth : Int := 3
def requestIDBadLogin : Int := -1

/-- Errors a read can report. -/
inductive ReadErr where
  /-- `io.EOF`: the stream ended and nothing at all was read. -/
  | EOF
  /-- `io.ErrUnexpectedEOF`: the stream ended in the middle of the requested bytes. -/
  | ErrUnexpectedEOF
  /-- An error of the underlying transport. -/
  | transport
deriving DecidableEq, Repr

/-- Values the source panics with. -/
inductive Panic where
  /-- `panic("NO AITH")` in `SendCommand`. -/
  | noAith
  /-- `panic("BAD AUTH")` in `authenticate`. -/
  | badAuth
  /-- `panic("WRITE FAIL")` in `sendPacket`. -/
  | writeFail
  /-- `panic("Packet too big when packetising.")` in `packetise`. -/
  | packetTooBig
  /-- `panic(err)` in `depacketise`. -/
  | readErr (e : ReadErr)
  /-- Run-time panic of `make([]byte, n)` with negative `n`. -/
  | makesliceLen
  /-- Run-time panic of `payload[:len(payload)-2]` with a negative bound. -/
  | sliceBounds
deriving DecidableEq, Repr

/-- Result of a Go call: a returned value or a panic. -/
inductive Outcome (α : Type) where
  | ret (a : α)
  | panic (p : Panic)
deriving DecidableEq, Repr

/-- The call ended in a panic. -/
def Outcome.isPanic {α : Type} : Outcome α → Bool
  | .ret _ => false
  | .panic _ => true

/-- The value returned to the caller, if any. -/
def Outcome.value {α : Type} : Outcome α → Option α
  | .ret a => some a
  | .panic _ => none

/-- How a byte stream ends once its pending bytes are used up. -/
inductive Ending where
  | eof
  | fault
deriving DecidableEq, Repr

/-- An `io.Reader`: the bytes it will still deliver and how it ends. -/
structure Reader where
  data : List Byte
  ending : Ending
deriving DecidableEq, Repr

/-- The error `io.ReadFull` reports when the stream ends after `got` bytes of a
longer request. -/
def shortErr (e : Ending) (got : Nat) : ReadErr :=
  match e with
  | .fault => .transport
  | .eof => if got = 0 then .EOF else .ErrUnexpectedEOF

/-- `io.ReadFull(r, buf)` with `len(buf) = n`: the bytes read or the error, and the
reader afterwards. A request of zero bytes succeeds without reading. -/
def readFull (r : Reader) (n : Nat) : Except ReadErr (List Byte) × Reader :=
  if n ≤ r.data.length then
    (.ok (r.data.take n), { r with data := r.data.drop n })
  else
    (.error (shortErr r.ending r.data.length), { r with data := [] })

/-- Decoding of the 12 header bytes by `binary.Read(r, binary.LittleEndian, &head)`. -/
def decodeHeader (buf : List Byte) : header :=
  { Size := getInt32LE buf
    RequestID := getInt32LE (buf.drop 4)
    PacketType := getInt32LE (buf.drop 8) }

/-- A `net.Conn`: its read side, every byte written to it so far, and the number
of bytes it still accepts before `Write` reports an error (`none`: no limit). -/
structure Conn where
  reader : Reader
  written : List Byte
  writeCap : Option Nat
deriving DecidableEq, Repr

/-- `c.connection.Write(packet)`: `true` when the error result is `nil`. A failing
write has transmitted the bytes that still fitted. -/
def Conn.Write (c : Conn) (b : List Byte) : Bool × Conn :=
  match c.writeCap with
  | none => (true, { c with written := c.written ++ b })
  | some k =>
    if b.length ≤ k then
      (true, { c with written := c.written ++ b, writeCap := some (k - b.length) })
    else
      (false, { c with written := c.written ++ b.take k, writeCap := some 0 })

/-- The `Client` struct; the password is a Go string. -/
structure Client where
  password : List Byte
  connection : Conn
deriving DecidableEq, Repr

/-- `packetise` of the source. -/
def packetise (t : Int) (p : List Byte) : Outcome (List Byte) :=
  let pad : List Byte := [0, 0]
  let length := wrapInt32 ((p.length : Int) + 10)
  let buf := putInt32LE length ++ putInt32LE 0 ++ putInt32LE t ++ p ++ pad
  if buf.length ≥ 1460 then .panic .packetTooBig else .ret buf

/-- `depacketise` of the source, with the reader it leaves behind. `head.Size-8` is
an `int32` subtraction; `make` is taken on a 64-bit platform, where every
non-negative `int32` length is allocated. -/
def depacketise (r : Reader) : Outcome (header × List Byte) × Reader :=
  match readFull r 12 with
  | (.error e, r1) => (.panic (.readErr e), r1)
  | (.ok buf, r1) =>
    let head := decodeHeader buf
    let n := wrapInt32 (head.Size - 8)
    if n < 0 then (.panic .makesliceLen, r1)
    else
      match readFull r1 n.toNat with
      | (.error e, r2) => (.panic (.readErr e), r2)
      | (.ok payload, r2) =>
        if payload.length < 2 then (.panic .sliceBounds, r2)
        else (.ret (head, payload.take (payload.length - 2)), r2)

/-- `sendPacket` of the source, with the client state it leaves behind. -/
def sendPacket (c : Client) (t : Int) (p : List Byte) :
    Outcome (header × List Byte) × Client :=
  match packetise t p with
  | .panic e => (.panic e, c)
  | .ret packet =>
    match c.connection.Write packet with
    | (false, conn1) => (.panic .writeFail, { c with connection := conn1 })
    | (true, conn1) =>
      match depacketise conn1.reader with
      | (res, r1) => (res, { c with connection := { conn1 with reader := r1 } })

/-- `authenticate` of the source. -/
def authenticate (c : Client) : Outcome Unit × Client :=
  match sendPacket c packetTypeAuth c.password with
  | (.panic e, c1) => (.panic e, c1)
  | (.ret (head, _), c1) =>
    if head.RequestID = requestIDBadLogin then (.panic .badAuth, c1)
    else (.ret (), c1)

/-- `SendCommand` of the source; the result is a Go string. -/
def SendCommand (c : Client) (command : List Byte) : Outcome (List Byte) × Client :=
  match authenticate c with
  | (.panic e, c1) => (.panic e, c1)
  | (.ret _, c1) =>
    match sendPacket c1 packetTypeCommand command with
    | (.panic e, c2) => (.panic e, c2)
    | (.ret (head, payload), c2) =>
      if head.RequestID = requestIDBadLogin then (.panic .noAith, c2)
      else (.ret payload, c2)

/-- The byte sequence `packetise` assembles in its buffer. -/
def wire (t : Int) (p : List Byte) : List Byte :=
  putInt32LE ((p.length : Int) + 10) ++ putInt32LE 0 ++ putInt32LE t ++ p ++ [0, 0]

/-- A complete response packet with an empty payload: size 10, request ID 0,
packet type 2, two padding bytes. -/
def emptyResponse : List Byte := [10, 0, 0, 0, 0, 0, 0, 0, 2, 0, 0, 0, 0, 0]

/-- A session with the password "pw" on a fresh connection whose peer answers the
Auth packet with `emptyResponse` and then closes. -/
def freshClient : Client :=
  { password := [112, 119]
    connection := { reader := ⟨emptyResponse, .eof⟩, written := [], writeCap := none } }

/-- A complete response packet carrying the bad-login request ID -1 (size 12,
packet type 7, payload "no"). -/
def badLoginResponse : List Byte :=
  [12, 0, 0, 0, 255, 255, 255, 255, 7, 0, 0, 0, 110, 111, 0, 0]

/-- A session with the password "pw" whose peer rejects the Auth packet. -/
def rejectedClient : Client :=
  { password := [112, 119]
    connection := { reader := ⟨badLoginResponse, .eof⟩, written := [], writeCap := none } }

/-- A session with the password "pw" whose peer accepts the Auth packet and
answers the command with the bad-login request ID. -/
def staleClient : Client :=
  { password := [112, 119]
    connection :=
      { reader := ⟨emptyResponse ++ badLoginResponse, .eof⟩, written := [], writeCap := none } }

/-- A complete response packet `{size=22, requestID=1, packetType=0}` with the
12-byte payload "Hello, world" and two padding bytes. -/
def helloResponse : List Byte :=
  [22, 0, 0, 0, 1, 0, 0, 0, 0, 0, 0, 0,
    72, 101, 108, 108, 111, 44, 32, 119, 111, 114, 108, 100, 0, 0]

/-- A session with the password "pw" whose peer answers both packets. -/
def answeredClient : Client :=
  { password := [112, 119]
    connection :=
      { reader := ⟨emptyResponse ++ helloResponse, .eof⟩, written := [], writeCap := none } }

/-- The bytes of the command "list". -/
def listCommand : List Byte := [108, 105, 115, 116]

/-- The 19 bytes of "There are 0 players". -/
def playersText : List Byte :=
  [84, 104, 101, 114, 101, 32, 97, 114, 101, 32, 48, 32, 112, 108, 97, 121, 101, 114, 115]

/-- The header `{size=22, requestID=1, packetType=0}` followed by the bytes of
"There are 0 players" and two zero padding bytes. -/
def listResponse22 : List Byte :=
  [22, 0, 0, 0, 1, 0, 0, 0, 0, 0, 0, 0] ++ playersText ++ [0, 0]

/-- The header `{size=29, requestID=1, packetType=0}` followed by the bytes of
"There are 0 players" and two zero padding bytes. -/
def listResponse29 : List Byte :=
  [29, 0, 0, 0, 1, 0, 0, 0, 0, 0, 0, 0] ++ playersText ++ [0, 0]

/-- A session with the password "pw" whose peer accepts the Auth packet and
answers the command with `listResponse22`. -/
def listClient22 : Client :=
  { password := [112, 119]
    connection :=
      { reader := ⟨emptyResponse ++ listResponse22, .eof⟩, written := [], writeCap := none } }

/-- A session with the password "pw" whose peer accepts the Auth packet and
answers the command with `listResponse29`. -/
def listClient29 : Client :=
  { password := [112, 119]
    connection :=
      { reader := ⟨emptyResponse ++ listResponse29, .eof⟩, written := [], writeCap := none } }

/-- A session with the password "pw" whose connection accepts only 5 more bytes. -/
def blockedClient : Client :=
  { password := [112, 119]
    connection := { reader := ⟨emptyResponse, .eof⟩, written := [], writeCap := some 5 } }

/-- A session with the password "pw" whose peer closes the stream without answering. -/
def silentClient : Client :=
  { password := [112, 119]
    connection := { reader := ⟨[], .eof⟩, written := [], writeCap := none } }

/-- A header `{size=-2147483648, requestID=0, packetType=0}`. -/
def wrapHeader : List Byte := [0, 0, 0, 128, 0, 0, 0, 0, 0, 0, 0, 0]

/-- The header `wrapHeader`, then 2147483640 zero bytes, then one byte 7. -/
def wrapStream : List Byte := wrapHeader ++ (List.replicate 2147483640 0 ++ [7])

/-- A reader holding a header `{size=12, requestID=0, packetType=0}` and one of the
four bytes it announces, then end of file. -/
def truncatedReader : Reader := ⟨[12, 0, 0, 0, 0, 0, 0, 0, 0, 0, 0, 0, 65], .eof⟩

/-! ## Auxiliary lemmas -/

theorem putInt32LE_length (v : Int) : (putInt32LE v).length = 4 := by
  simp [putInt32LE]

theorem leNat_putInt32LE (v : Int) :
    leNat (putInt32LE v) = (v % 4294967296).toNat := by
  have h0 : 0 ≤ v % 4294967296 := Int.emod_nonneg _ (by decide)
  have h1 : v % 4294967296 < 4294967296 := Int.emod_lt_of_pos _ (by decide)
  have hu : (v % 4294967296).toNat < 4294967296 := by omega
  simp only [putInt32LE, leNat, byteAt]
  generalize (v % 4294967296).toNat = u at hu
  norm_num
  omega

theorem getInt32LE_putInt32LE (v : Int) (rest : List Byte) (hv : isInt32 v) :
    getInt32LE (putInt32LE v ++ rest) = v := by
  have hl := putInt32LE_length v
  have : (putInt32LE v ++ rest).take 4 = putInt32LE v := by
    rw [List.take_append_of_le_length (by omega), List.take_of_length_le (by omega)]
  unfold getInt32LE
  rw [this, leNat_putInt32LE]
  unfold isInt32 at hv
  unfold wrapInt32
  omega

theorem wire_length (t : Int) (p : List Byte) : (wire t p).length = p.length + 14 := by
  simp [wire, putInt32LE_length]
  omega

theorem wrapInt32_of_isInt32 (v : Int) (hv : isInt32 v) : wrapInt32 v = v := by
  unfold isInt32 at hv
  unfold wrapInt32
  omega

theorem packetise_of_small (t : Int) (p : List Byte) (h : p.length + 14 < 1460) :
    packetise t p = .ret (wire t p) := by
  have hw : wrapInt32 ((p.length : Int) + 10) = (p.length : Int) + 10 :=
    wrapInt32_of_isInt32 _ (by unfold isInt32; omega)
  have hl := wire_length t p
  unfold packetise
  simp only [hw]
  unfold wire at hl
  rw [if_neg (by omega)]
  rfl

theorem packetise_of_large (t : Int) (p : List Byte) (h : 1460 ≤ p.length + 14) :
    packetise t p = .panic .packetTooBig := by
  unfold packetise
  simp only
  rw [if_pos]
  simp [putInt32LE_length]
  omega

theorem readFull_append (a b : List Byte) (e : Ending) :
    readFull ⟨a ++ b, e⟩ a.length = (.ok a, ⟨b, e⟩) := by
  simp [readFull]

theorem readFull_short (d : List Byte) (e : Ending) (n : Nat) (h : d.length < n) :
    readFull ⟨d, e⟩ n = (.error (shortErr e d.length), ⟨[], e⟩) := by
  simp [readFull, Nat.not_le.mpr h]

theorem wrapInt32_isInt32 (v : Int) : isInt32 (wrapInt32 v) := by
  unfold isInt32 wrapInt32
  omega

theorem decodeHeader_Size_isInt32 (buf : List Byte) : isInt32 (decodeHeader buf).Size :=
  wrapInt32_isInt32 _

/-- Behaviour of `depacketise` on a complete packet: a 12-byte header declaring a
size of at least 10, the `size - 8` bytes of its body, and whatever follows. -/
theorem depacketise_complete (hdr body rest : List Byte) (e : Ending)
    (hh : hdr.length = 12) (hs : 10 ≤ (decodeHeader hdr).Size)
    (hb : (body.length : Int) = (decodeHeader hdr).Size - 8) :
    depacketise ⟨hdr ++ body ++ rest, e⟩ =
      (.ret (decodeHeader hdr, body.take (body.length - 2)), ⟨rest, e⟩) := by
  have hw : wrapInt32 ((decodeHeader hdr).Size - 8) = (body.length : Int) := by
    rw [← hb]
    have hr := decodeHeader_Size_isInt32 hdr
    unfold isInt32 at hr
    exact wrapInt32_of_isInt32 _ (by unfold isInt32; omega)
  have h1 : readFull ⟨hdr ++ body ++ rest, e⟩ 12 = (.ok hdr, ⟨body ++ rest, e⟩) := by
    rw [← hh, List.append_assoc]
    exact readFull_append hdr (body ++ rest) e
  unfold depacketise
  rw [h1]
  simp only [hw, Int.toNat_ofNat, readFull_append]
  have : ¬ ((body.length : Int) < 0) := by omega
  have h2 : ¬ (body.length < 2) := by omega
  simp [this, h2]

theorem decodeHeader_put (a b c : Int) (rest : List Byte)
    (ha : isInt32 a) (hb : isInt32 b) (hc : isInt32 c) :
    decodeHeader (putInt32LE a ++ putInt32LE b ++ putInt32LE c ++ rest) = ⟨a, b, c⟩ := by
  have la := putInt32LE_length a
  have lb := putInt32LE_length b
  have d4 : (putInt32LE a ++ putInt32LE b ++ putInt32LE c ++ rest).drop 4
      = putInt32LE b ++ (putInt32LE c ++ rest) := by
    rw [List.append_assoc, List.append_assoc, ← la, List.drop_left]
  have d8 : (putInt32LE a ++ putInt32LE b ++ putInt32LE c ++ rest).drop 8
      = putInt32LE c ++ rest := by
    have : (putInt32LE a ++ putInt32LE b).length = 8 := by simp [la, lb]
    rw [List.append_assoc (putInt32LE a ++ putInt32LE b), ← this, List.drop_left]
  unfold decodeHeader
  rw [d4, d8, List.append_assoc, List.append_assoc, getInt32LE_putInt32LE a _ ha,
    getInt32LE_putInt32LE b _ hb, getInt32LE_putInt32LE c _ hc]

/-! ## Packet codec -/

/-- C1 (as stated, refuted): the payload of 1446 zero bytes satisfies
`len(p) + 10 < 1460`, yet `packetise` panics on it and returns nothing. -/
theorem roundtrip_guard_counterexample :
    (List.replicate 1446 (0 : Byte)).length + 10 < 1460 ∧
      packetise packetTypeCommand (List.replicate 1446 0) = .panic .packetTooBig ∧
      (packetise packetTypeCommand (List.replicate 1446 0)).value = none := by
  have hl : (List.replicate 1446 (0 : Byte)).length = 1446 := List.length_replicate _ _
  have h : packetise packetTypeCommand (List.replicate 1446 0) = .panic .packetTooBig :=
    packetise_of_large _ _ (by omega)
  refine ⟨by omega, h, ?_⟩
  rw [h]
  rfl

/-- C1 (amended): for every packet type `t` and payload `p` whose encoded length
`len(p) + 14` is below 1460, `packetise t p` returns a packet, and `depacketise`
on a stream holding exactly those bytes returns a header whose `PacketType` is
`t` (with size `len(p) + 10` and request ID 0) together with the payload `p`,
leaving the stream empty. -/
theorem roundtrip (t : Int) (p : List Byte) (e : Ending)
    (ht : isInt32 t) (h : p.length + 14 < 1460) :
    ∃ out, packetise t p = .ret out ∧
      depacketise ⟨out, e⟩ = (.ret (⟨(p.length : Int) + 10, 0, t⟩, p), ⟨[], e⟩) := by
  refine ⟨wire t p, packetise_of_small t p h, ?_⟩
  have hd := decodeHeader_put ((p.length : Int) + 10) 0 t []
    (by unfold isInt32; omega) (by unfold isInt32; omega) ht
  rw [List.append_nil] at hd
  have key := depacketise_complete
    (putInt32LE ((p.length : Int) + 10) ++ putInt32LE 0 ++ putInt32LE t) (p ++ [0, 0]) [] e
    (by simp [putInt32LE_length]) (by rw [hd]; simp) (by rw [hd]; simp; omega)
  rw [hd] at key
  simpa [wire] using key

theorem roundtrip_witness :
    isInt32 3 ∧ [(114 : Byte), 99, 111, 110].length + 14 < 1460 ∧ ∃ out, packetise 3 [114, 99, 111, 110] = .ret out ∧
      depacketise ⟨out, .eof⟩ = (.ret (⟨((4 : Nat) : Int) + 10, 0, 3⟩, [114, 99, 111, 110]), ⟨[], .eof⟩) :=
  ⟨by decide, by decide, roundtrip 3 [114, 99, 111, 110] .eof (by decide) (by decide)⟩

/-- C2: whenever `packetise t p` returns, its output is the four little-endian bytes
of `len(p) + 10`, then the four zero bytes of request ID 0, then the four
little-endian bytes of `t`, then `p` unchanged, then two zero bytes. -/
theorem packetise_wire_layout (t : Int) (p out : List Byte)
    (h : packetise t p = .ret out) :
    out = [byteAt (p.length + 10) 0, byteAt (p.length + 10) 1,
            byteAt (p.length + 10) 2, byteAt (p.length + 10) 3]
          ++ [0, 0, 0, 0] ++ putInt32LE t ++ p ++ [0, 0] := by
  by_cases hs : p.length + 14 < 1460
  · rw [packetise_of_small t p hs] at h
    injection h with h
    rw [← h]
    have h10 : (((p.length : Int) + 10) % 4294967296).toNat = p.length + 10 := by omega
    have h0 : putInt32LE 0 = [0, 0, 0, 0] := by decide
    simp only [wire, h0]
    simp only [putInt32LE, h10]
  · rw [packetise_of_large t p (by omega)] at h
    cases h

theorem packetise_wire_layout_witness :
    packetise 2 [108, 105, 115, 116] =
        .ret [14, 0, 0, 0, 0, 0, 0, 0, 2, 0, 0, 0, 108, 105, 115, 116, 0, 0] ∧
      [(14 : Byte), 0, 0, 0, 0, 0, 0, 0, 2, 0, 0, 0, 108, 105, 115, 116, 0, 0] =
        [byteAt ([(108 : Byte), 105, 115, 116].length + 10) 0,
          byteAt ([(108 : Byte), 105, 115, 116].length + 10) 1,
          byteAt ([(108 : Byte), 105, 115, 116].length + 10) 2,
          byteAt ([(108 : Byte), 105, 115, 116].length + 10) 3]
        ++ [0, 0, 0, 0] ++ putInt32LE 2 ++ [108, 105, 115, 116] ++ [0, 0] :=
  ⟨by decide, packetise_wire_layout 2 [108, 105, 115, 116] _ (by decide)⟩

/-- C3: in every packet `packetise` returns, the size field (the first four bytes
read as a little-endian `int32`) equals the length of the packet minus 4, which is
`4 + 4 + len(p) + 2`. -/
theorem packetise_size_field (t : Int) (p out : List Byte)
    (h : packetise t p = .ret out) :
    getInt32LE out = (out.length : Int) - 4 ∧
      (out.length : Int) - 4 = 4 + 4 + (p.length : Int) + 2 := by
  by_cases hs : p.length + 14 < 1460
  · rw [packetise_of_small t p hs] at h
    injection h with h
    rw [← h, wire_length]
    refine ⟨?_, by omega⟩
    have : wire t p = putInt32LE ((p.length : Int) + 10)
        ++ (putInt32LE 0 ++ putInt32LE t ++ p ++ [0, 0]) := by
      simp [wire]
    rw [this, getInt32LE_putInt32LE _ _ (by unfold isInt32; omega)]
    omega
  · rw [packetise_of_large t p (by omega)] at h
    cases h

theorem packetise_size_field_witness :
    packetise 2 [108, 105, 115, 116] =
        .ret [14, 0, 0, 0, 0, 0, 0, 0, 2, 0, 0, 0, 108, 105, 115, 116, 0, 0] ∧
      getInt32LE [(14 : Byte), 0, 0, 0, 0, 0, 0, 0, 2, 0, 0, 0, 108, 105, 115, 116, 0, 0] =
        ([(14 : Byte), 0, 0, 0, 0, 0, 0, 0, 2, 0, 0, 0, 108, 105, 115, 116, 0, 0].length : Int) - 4 ∧
      ([(14 : Byte), 0, 0, 0, 0, 0, 0, 0, 2, 0, 0, 0, 108, 105, 115, 116, 0, 0].length : Int) - 4 =
        4 + 4 + ([(108 : Byte), 105, 115, 116].length : Int) + 2 :=
  ⟨by decide, packetise_size_field 2 [108, 105, 115, 116] _ (by decide)⟩

/-- C4: the buffer `packetise` assembles has `12 + len(p) + 2` bytes; `packetise t p`
returns it exactly when that total is below 1460 and otherwise panics with
"Packet too big when packetising.". -/
theorem packetise_size_ceiling (t : Int) (p : List Byte) :
    (wire t p).length = 12 + p.length + 2 ∧
      packetise t p =
        if 12 + p.length + 2 < 1460 then .ret (wire t p) else .panic .packetTooBig := by
  refine ⟨by rw [wire_length]; omega, ?_⟩
  by_cases hs : 12 + p.length + 2 < 1460
  · rw [if_pos hs, packetise_of_small t p (by omega)]
  · rw [if_neg hs, packetise_of_large t p (by omega)]

/-! ## Session lemmas -/

theorem sendPacket_of_large (c : Client) (t : Int) (p : List Byte)
    (h : 1460 ≤ p.length + 14) : sendPacket c t p = (.panic .packetTooBig, c) := by
  unfold sendPacket
  rw [packetise_of_large t p h]

/-- A write the connection has room for appends all its bytes. -/
theorem Conn.Write_accepts (c : Conn) (b : List Byte)
    (h : ∀ k, c.writeCap = some k → b.length ≤ k) :
    c.Write b = (true, { c with written := c.written ++ b,
                                writeCap := c.writeCap.map (fun k => k - b.length) }) := by
  unfold Conn.Write
  cases hc : c.writeCap with
  | none => simp
  | some k => simp [h k hc]

/-- Every call of `sendPacket` leaves on the wire the bytes written before it,
followed by an initial segment of the packet it was asked to send. -/
theorem sendPacket_written (c : Client) (t : Int) (p : List Byte) :
    ∃ k, (sendPacket c t p).2.connection.written
      = c.connection.written ++ (wire t p).take k := by
  by_cases hs : p.length + 14 < 1460
  · unfold sendPacket
    rw [packetise_of_small t p hs]
    cases hc : c.connection.writeCap with
    | none =>
      refine ⟨(wire t p).length, ?_⟩
      simp [Conn.Write, hc]
    | some k =>
      by_cases hk : (wire t p).length ≤ k
      · refine ⟨(wire t p).length, ?_⟩
        simp [Conn.Write, hc, hk]
      · refine ⟨k, ?_⟩
        simp [Conn.Write, hc, hk]
  · refine ⟨0, ?_⟩
    rw [sendPacket_of_large c t p (by omega)]
    simp

/-- One complete exchange: the packet fits, the connection accepts it, and the read
side holds a complete response packet. -/
theorem sendPacket_complete (c : Client) (t : Int) (p hdr body rest : List Byte)
    (hp : p.length + 14 < 1460)
    (hw : ∀ k, c.connection.writeCap = some k → p.length + 14 ≤ k)
    (hr : c.connection.reader.data = hdr ++ body ++ rest)
    (hh : hdr.length = 12) (hs : 10 ≤ (decodeHeader hdr).Size)
    (hb : (body.length : Int) = (decodeHeader hdr).Size - 8) :
    sendPacket c t p =
      (.ret (decodeHeader hdr, body.take (body.length - 2)),
        { c with connection :=
            { reader := ⟨rest, c.connection.reader.ending⟩
              written := c.connection.written ++ wire t p
              writeCap := c.connection.writeCap.map (fun k => k - (p.length + 14)) } }) := by
  have hwr := Conn.Write_accepts c.connection (wire t p)
    (by intro k hk; rw [wire_length]; exact hw k hk)
  have hrd : c.connection.reader = ⟨hdr ++ body ++ rest, c.connection.reader.ending⟩ := by
    rw [← hr]
  unfold sendPacket
  rw [packetise_of_small t p hp]
  simp only
  rw [hwr]
  simp only
  rw [hrd, depacketise_complete hdr body rest _ hh hs hb, wire_length]
theorem authenticate_written (c : Client) :
    ∃ k, (authenticate c).2.connection.written
      = c.connection.written ++ (wire packetTypeAuth c.password).take k := by
  obtain ⟨k, hk⟩ := sendPacket_written c packetTypeAuth c.password
  refine ⟨k, ?_⟩
  rw [← hk]
  unfold authenticate
  rcases hsp : sendPacket c packetTypeAuth c.password with ⟨res, c1⟩
  cases res with
  | panic e => rfl
  | ret a =>
    obtain ⟨head, payload⟩ := a
    by_cases hid : head.RequestID = requestIDBadLogin <;> simp [hid]

theorem SendCommand_of_large (c : Client) (command : List Byte)
    (h : 1460 ≤ command.length + 14) :
    (SendCommand c command).2 = (authenticate c).2 ∧
      (SendCommand c command).1.isPanic = true ∧
      ((authenticate c).1 = .ret () → (SendCommand c command).1 = .panic .packetTooBig) := by
  unfold SendCommand
  rcases ha : authenticate c with ⟨res, c1⟩
  cases res with
  | panic e => simp [Outcome.isPanic]
  | ret a => simp [sendPacket_of_large c1 packetTypeCommand command h, Outcome.isPanic]

/-! ## Session -/

/-- C5 (as stated, refuted): on a fresh connection whose peer accepts the password,
a command of 1450 bytes (`len + 10 >= 1460`) makes `SendCommand` fail with the
packet-too-big panic, but by then the 16 bytes of the Auth packet have been
written. -/
theorem oversize_command_counterexample :
    1460 ≤ (List.replicate 1450 (0 : Byte)).length + 10 ∧
      freshClient.connection.written = [] ∧
      (SendCommand freshClient (List.replicate 1450 0)).1 = .panic .packetTooBig ∧
      (SendCommand freshClient (List.replicate 1450 0)).2.connection.written
        = [12, 0, 0, 0, 0, 0, 0, 0, 3, 0, 0, 0, 112, 119, 0, 0] := by
  have hl : (List.replicate 1450 (0 : Byte)).length = 1450 := List.length_replicate _ _
  have ha : authenticate freshClient = (.ret (),
      { password := [112, 119]
        connection := { reader := ⟨[], .eof⟩
                        written := [12, 0, 0, 0, 0, 0, 0, 0, 3, 0, 0, 0, 112, 119, 0, 0]
                        writeCap := none } }) := by decide
  obtain ⟨h2, _, h3⟩ := SendCommand_of_large freshClient (List.replicate 1450 0) (by omega)
  refine ⟨by omega, rfl, ?_, ?_⟩
  · exact h3 (by rw [ha])
  · rw [h2, ha]

/-- C5 (amended): for every session and every command with `len(command) + 10 >= 1460`,
`sendPacket` for the Command packet fails with the packet-too-big panic and leaves
the connection untouched, so `SendCommand` returns no string and writes no byte of
a Command packet: it leaves the session exactly as `authenticate` left it, the
bytes written being those already there followed by an initial segment of the
Auth packet, and it fails with the packet-too-big panic whenever `authenticate`
returns. -/
theorem oversize_command (c : Client) (command : List Byte)
    (h : 1460 ≤ command.length + 10) :
    (∀ c1 : Client, sendPacket c1 packetTypeCommand command = (.panic .packetTooBig, c1)) ∧
      (SendCommand c command).1.value = none ∧
      (SendCommand c command).2 = (authenticate c).2 ∧
      (∃ k, (SendCommand c command).2.connection.written
        = c.connection.written ++ (wire packetTypeAuth c.password).take k) ∧
      ((authenticate c).1 = .ret () →
        (SendCommand c command).1 = .panic .packetTooBig) := by
  obtain ⟨h2, h1, h3⟩ := SendCommand_of_large c command (by omega)
  refine ⟨fun c1 => sendPacket_of_large c1 _ _ (by omega), ?_, h2, ?_, h3⟩
  · cases hr : (SendCommand c command).1 with
    | panic e => rfl
    | ret a => rw [hr] at h1; cases h1
  · rw [h2]
    exact authenticate_written c

theorem oversize_command_witness :
    1460 ≤ (List.replicate 1450 (0 : Byte)).length + 10 ∧
    ((∀ c1 : Client, sendPacket c1 packetTypeCommand (List.replicate 1450 0)
        = (.panic .packetTooBig, c1)) ∧
      (SendCommand freshClient (List.replicate 1450 0)).1.value = none ∧
      (SendCommand freshClient (List.replicate 1450 0)).2 = (authenticate freshClient).2 ∧
      (∃ k, (SendCommand freshClient (List.replicate 1450 0)).2.connection.written
        = freshClient.connection.written
          ++ (wire packetTypeAuth freshClient.password).take k) ∧
      ((authenticate freshClient).1 = .ret () →
        (SendCommand freshClient (List.replicate 1450 0)).1 = .panic .packetTooBig)) :=
  ⟨by rw [List.length_replicate], oversize_command freshClient (List.replicate 1450 0)
    (by rw [List.length_replicate])⟩

/-- C6: when the stream starts with 12 header bytes whose little-endian `int32`
fields are `(size, requestID, packetType)` with `size >= 10`, and at least
`size - 8` further bytes follow, `depacketise` returns a header with exactly those
three values and, as payload, the first `size - 10` of the bytes after the header,
which is the region of `size - 8` bytes without its last two. -/
theorem depacketise_decodes (hdr rest : List Byte) (e : Ending) (size rid pt : Int)
    (hh : hdr.length = 12)
    (hsize : getInt32LE hdr = size) (hrid : getInt32LE (hdr.drop 4) = rid)
    (hpt : getInt32LE (hdr.drop 8) = pt)
    (hs : 10 ≤ size) (hr : size - 8 ≤ (rest.length : Int)) :
    (depacketise ⟨hdr ++ rest, e⟩).1
        = .ret (⟨size, rid, pt⟩, rest.take (size - 10).toNat) ∧
      rest.take (size - 10).toNat
        = (rest.take (size - 8).toNat).take ((rest.take (size - 8).toNat).length - 2) := by
  have hd : decodeHeader hdr = ⟨size, rid, pt⟩ := by
    unfold decodeHeader
    rw [hsize, hrid, hpt]
  have hlen : (rest.take (size - 8).toNat).length = (size - 8).toNat := by
    rw [List.length_take]
    omega
  have hsplit : hdr ++ rest
      = hdr ++ rest.take (size - 8).toNat ++ rest.drop (size - 8).toNat := by
    rw [List.append_assoc, List.take_append_drop]
  have htake : (rest.take (size - 8).toNat).take ((rest.take (size - 8).toNat).length - 2)
      = rest.take (size - 10).toNat := by
    have hm : min ((size - 8).toNat - 2) (size - 8).toNat = (size - 10).toNat := by omega
    rw [hlen, List.take_take, hm]
  refine ⟨?_, htake.symm⟩
  rw [hsplit, depacketise_complete hdr _ _ e hh (by rw [hd]; exact hs)
    (by rw [hd, hlen]; simp only; omega), hd, htake]

theorem depacketise_decodes_witness :
    ([22, 0, 0, 0, 1, 0, 0, 0, 0, 0, 0, 0] : List Byte).length = 12 ∧
      (10 : Int) ≤ 22 ∧
      (depacketise ⟨[22, 0, 0, 0, 1, 0, 0, 0, 0, 0, 0, 0]
          ++ [72, 101, 108, 108, 111, 44, 32, 119, 111, 114, 108, 100, 0, 0, 9, 9], .eof⟩).1
        = .ret (⟨22, 1, 0⟩,
            ([72, 101, 108, 108, 111, 44, 32, 119, 111, 114, 108, 100, 0, 0, 9, 9] :
              List Byte).take ((22 : Int) - 10).toNat) :=
  ⟨by decide, by decide,
    (depacketise_decodes [22, 0, 0, 0, 1, 0, 0, 0, 0, 0, 0, 0]
      [72, 101, 108, 108, 111, 44, 32, 119, 111, 114, 108, 100, 0, 0, 9, 9] .eof 22 1 0
      (by decide) (by decide) (by decide) (by decide) (by decide) (by decide)).1⟩
/-- What `depacketise` does after a complete 12-byte header, by declared size. -/
theorem depacketise_after_header (hdr rest : List Byte) (e : Ending)
    (hh : hdr.length = 12) :
    depacketise ⟨hdr ++ rest, e⟩ =
      (let n := wrapInt32 ((decodeHeader hdr).Size - 8)
       if n < 0 then (.panic .makesliceLen, ⟨rest, e⟩)
       else
         match readFull ⟨rest, e⟩ n.toNat with
         | (.error err, r2) => (.panic (.readErr err), r2)
         | (.ok payload, r2) =>
           if payload.length < 2 then (.panic .sliceBounds, r2)
           else (.ret (decodeHeader hdr, payload.take (payload.length - 2)), r2)) := by
  have h1 : readFull ⟨hdr ++ rest, e⟩ 12 = (.ok hdr, ⟨rest, e⟩) := by
    rw [← hh]
    exact readFull_append hdr rest e
  unfold depacketise
  rw [h1]

/-- C7 (as stated, refuted): headers declaring the sizes 8, 9, 7 and -1 make
`depacketise` end in a run-time panic; no error value reaches the caller. -/
theorem malformed_header_counterexample :
    (decodeHeader [8, 0, 0, 0, 0, 0, 0, 0, 0, 0, 0, 0]).Size = 8 ∧
      depacketise ⟨[8, 0, 0, 0, 0, 0, 0, 0, 0, 0, 0, 0], .eof⟩
        = (.panic .sliceBounds, ⟨[], .eof⟩) ∧
      (depacketise ⟨[8, 0, 0, 0, 0, 0, 0, 0, 0, 0, 0, 0], .eof⟩).1.isPanic = true ∧
      (depacketise ⟨[9, 0, 0, 0, 0, 0, 0, 0, 0, 0, 0, 0, 65], .eof⟩).1
        = .panic .sliceBounds ∧
      (depacketise ⟨[7, 0, 0, 0, 0, 0, 0, 0, 0, 0, 0, 0], .eof⟩).1
        = .panic .makesliceLen ∧
      (decodeHeader [255, 255, 255, 255, 0, 0, 0, 0, 0, 0, 0, 0]).Size = -1 ∧
      (depacketise ⟨[255, 255, 255, 255, 0, 0, 0, 0, 0, 0, 0, 0], .eof⟩).1
        = .panic .makesliceLen := by
  decide

/-- C7 (amended): for every stream whose 12-byte header declares a size below 10
(8, 9, below 8, negative) and that holds fewer than 2147483640 bytes after the
header, `depacketise` returns no header and no payload; the failure reaches the
caller as a panic, not as an error value: the run-time panic of `make` for sizes
from -2147483640 to 7, the run-time slice-bounds panic for sizes 8 and 9 (for 9,
the read error when no byte follows the header), and the read error for sizes
below -2147483640. -/
theorem malformed_header_panics (hdr rest : List Byte) (e : Ending)
    (hh : hdr.length = 12) (hs : (decodeHeader hdr).Size < 10)
    (hr : rest.length < 2147483640) :
    (depacketise ⟨hdr ++ rest, e⟩).1.value = none ∧
      (depacketise ⟨hdr ++ rest, e⟩).1 = .panic
        (if (decodeHeader hdr).Size < -2147483640 then .readErr (shortErr e rest.length)
         else if (decodeHeader hdr).Size < 8 then .makesliceLen
         else if (decodeHeader hdr).Size = 9 ∧ rest = [] then .readErr (shortErr e 0)
         else .sliceBounds) := by
  have hi := decodeHeader_Size_isInt32 hdr
  unfold isInt32 at hi
  have key : (depacketise ⟨hdr ++ rest, e⟩).1 = .panic
        (if (decodeHeader hdr).Size < -2147483640 then .readErr (shortErr e rest.length)
         else if (decodeHeader hdr).Size < 8 then .makesliceLen
         else if (decodeHeader hdr).Size = 9 ∧ rest = [] then .readErr (shortErr e 0)
         else .sliceBounds) := by
    rw [depacketise_after_header hdr rest e hh]
    generalize decodeHeader hdr = head at hs hi
    obtain ⟨s, rid, pt⟩ := head
    simp only at hs hi ⊢
    by_cases h1 : s < -2147483640
    · have hw : wrapInt32 (s - 8) = s + 4294967288 := by unfold wrapInt32; omega
      rw [hw, if_neg (by omega), if_pos h1,
        readFull_short rest e _ (by omega)]
    · by_cases h2 : s < 8
      · have hw : wrapInt32 (s - 8) = s - 8 := by unfold wrapInt32; omega
        rw [hw, if_pos (by omega), if_neg h1, if_pos h2]
      · have hw : wrapInt32 (s - 8) = s - 8 := by unfold wrapInt32; omega
        rw [hw, if_neg (by omega), if_neg h1, if_neg h2]
        by_cases h3 : s = 9 ∧ rest = []
        · obtain ⟨h9, hn⟩ := h3
          subst h9
          subst hn
          rw [if_pos ⟨rfl, rfl⟩, readFull_short [] e _ (by decide)]
          rfl
        · rw [if_neg h3]
          have hle : (s - 8).toNat ≤ rest.length := by
            by_cases h8 : s = 8
            · subst h8
              simp
            · have h9 : s = 9 := by omega
              have hne : rest ≠ [] := fun hn => h3 ⟨h9, hn⟩
              have := List.length_pos.mpr hne
              omega
          have hrf : readFull ⟨rest, e⟩ (s - 8).toNat
              = (.ok (rest.take (s - 8).toNat), ⟨rest.drop (s - 8).toNat, e⟩) := by
            simp [readFull, hle]
          rw [hrf]
          simp only
          rw [if_pos (by rw [List.length_take]; omega)]
  refine ⟨?_, key⟩
  rw [key]
  rfl

theorem malformed_header_panics_witness :
    ([9, 0, 0, 0, 0, 0, 0, 0, 0, 0, 0, 0] : List Byte).length = 12 ∧
      (decodeHeader [9, 0, 0, 0, 0, 0, 0, 0, 0, 0, 0, 0]).Size < 10 ∧
      ([65, 66] : List Byte).length < 2147483640 ∧
      (depacketise ⟨[9, 0, 0, 0, 0, 0, 0, 0, 0, 0, 0, 0] ++ [65, 66], .eof⟩).1.value = none :=
  ⟨by decide, by decide, by decide,
    (malformed_header_panics [9, 0, 0, 0, 0, 0, 0, 0, 0, 0, 0, 0] [65, 66] .eof
      (by decide) (by decide) (by decide)).1⟩

/-- C8: when the stream ends before 12 header bytes are available, or supplies a
full header declaring a size of at least 10 and then fewer than `size - 8` bytes,
`depacketise` returns no header and no payload: it fails with the read error,
which is `io.EOF` or `io.ErrUnexpectedEOF` (short read) when the stream ended and
the transport error when the stream broke. -/
theorem short_stream (data : List Byte) (e : Ending)
    (h : data.length < 12 ∨
      (10 ≤ (decodeHeader (data.take 12)).Size ∧
        (data.length : Int) - 12 < (decodeHeader (data.take 12)).Size - 8)) :
    (depacketise ⟨data, e⟩).1.value = none ∧
      (depacketise ⟨data, e⟩).1 = .panic (.readErr
        (shortErr e (if data.length < 12 then data.length else data.length - 12))) := by
  have key : (depacketise ⟨data, e⟩).1 = .panic (.readErr
        (shortErr e (if data.length < 12 then data.length else data.length - 12))) := by
    by_cases hl : data.length < 12
    · rw [if_pos hl]
      unfold depacketise
      rw [readFull_short data e 12 hl]
    · rw [if_neg hl]
      rcases h with h | ⟨hs, hr⟩
      · exact absurd h hl
      · have hh : (data.take 12).length = 12 := by
          rw [List.length_take]
          omega
        have hd : (data.drop 12).length = data.length - 12 := List.length_drop _ _
        have hi := decodeHeader_Size_isInt32 (data.take 12)
        unfold isInt32 at hi
        have hsplit : data = data.take 12 ++ data.drop 12 := (List.take_append_drop 12 data).symm
        rw [hsplit, depacketise_after_header _ _ e hh, ← hsplit]
        generalize decodeHeader (data.take 12) = head at hs hr hi
        obtain ⟨s, rid, pt⟩ := head
        simp only at hs hr hi ⊢
        have hw : wrapInt32 (s - 8) = s - 8 := by unfold wrapInt32; omega
        rw [hw, if_neg (by omega), readFull_short (data.drop 12) e _ (by omega), hd]
  refine ⟨?_, key⟩
  rw [key]
  rfl

theorem short_stream_witness :
    (([10, 0, 0] : List Byte).length < 12 ∨
      (10 ≤ (decodeHeader (([10, 0, 0] : List Byte).take 12)).Size ∧
        ((([10, 0, 0] : List Byte).length : Nat) : Int) - 12
          < (decodeHeader (([10, 0, 0] : List Byte).take 12)).Size - 8)) ∧
      (depacketise ⟨[10, 0, 0], .eof⟩).1 = .panic (.readErr .ErrUnexpectedEOF) ∧
      (depacketise ⟨[12, 0, 0, 0, 0, 0, 0, 0, 0, 0, 0, 0, 65, 0, 0], .fault⟩).1
        = .panic (.readErr .transport) :=
  ⟨Or.inl (by decide),
    (short_stream [10, 0, 0] .eof (Or.inl (by decide))).2,
    (short_stream [12, 0, 0, 0, 0, 0, 0, 0, 0, 0, 0, 0, 65, 0, 0] .fault
      (Or.inr (by decide))).2⟩

/-- C9: a decoded response whose request ID is -1 is always turned into the
authentication failure, whatever its packet type and payload: if it is the response
to the Auth packet, `authenticate` panics with "BAD AUTH" and so does
`SendCommand`; if it is the response to the Command packet, `SendCommand` panics
with "NO AITH". In both cases `SendCommand` returns no string. -/
theorem bad_login_sentinel (c c0 c1 : Client) (command payload : List Byte)
    (head : header) (hid : head.RequestID = requestIDBadLogin) :
    (sendPacket c packetTypeAuth c.password = (.ret (head, payload), c1) →
        authenticate c = (.panic .badAuth, c1) ∧
        SendCommand c command = (.panic .badAuth, c1) ∧
        (SendCommand c command).1.value = none) ∧
      (authenticate c = (.ret (), c0) →
        sendPacket c0 packetTypeCommand command = (.ret (head, payload), c1) →
        SendCommand c command = (.panic .noAith, c1) ∧
        (SendCommand c command).1.value = none) := by
  constructor
  · intro hsp
    have ha : authenticate c = (.panic .badAuth, c1) := by
      unfold authenticate
      rw [hsp]
      simp only
      rw [if_pos hid]
    have hc : SendCommand c command = (.panic .badAuth, c1) := by
      unfold SendCommand
      rw [ha]
    refine ⟨ha, hc, ?_⟩
    rw [hc]
    rfl
  · intro ha hsp
    have hc : SendCommand c command = (.panic .noAith, c1) := by
      unfold SendCommand
      rw [ha]
      simp only
      rw [hsp]
      simp only
      rw [if_pos hid]
    refine ⟨hc, ?_⟩
    rw [hc]
    rfl

theorem bad_login_sentinel_witness :
    (⟨12, -1, 7⟩ : header).RequestID = requestIDBadLogin ∧
      authenticate rejectedClient
        = (.panic .badAuth,
            { password := [112, 119]
              connection := { reader := ⟨[], .eof⟩
                              written := [12, 0, 0, 0, 0, 0, 0, 0, 3, 0, 0, 0, 112, 119, 0, 0]
                              writeCap := none } }) ∧
      (SendCommand staleClient [108, 105, 115, 116]).1 = .panic .noAith :=
  ⟨by decide,
    ((bad_login_sentinel rejectedClient rejectedClient _ [108, 105, 115, 116] [110, 111]
      ⟨12, -1, 7⟩ (by decide)).1 (by decide)).1,
    by
      rw [((bad_login_sentinel staleClient
        { password := [112, 119]
          connection := { reader := ⟨badLoginResponse, .eof⟩
                          written := [12, 0, 0, 0, 0, 0, 0, 0, 3, 0, 0, 0, 112, 119, 0, 0]
                          writeCap := none } }
        { password := [112, 119]
          connection := { reader := ⟨[], .eof⟩
                          written := [12, 0, 0, 0, 0, 0, 0, 0, 3, 0, 0, 0, 112, 119, 0, 0,
                            14, 0, 0, 0, 0, 0, 0, 0, 2, 0, 0, 0, 108, 105, 115, 116, 0, 0]
                          writeCap := none } }
        [108, 105, 115, 116] [110, 111]
        ⟨12, -1, 7⟩ (by decide)).2 (by decide) (by decide)).1]⟩

/-- C10: when the password and the command fit the size ceiling, the connection
accepts both packets, and the read side holds two complete response packets
(12-byte header declaring a size of at least 10, then `size - 8` bytes) whose
request IDs are not -1, `SendCommand` appends to the bytes written exactly
`packetise(Auth, password)` followed by `packetise(Command, command)` and returns
the payload of the second response. -/
theorem SendCommand_success (c : Client) (command h1 b1 h2 b2 rest : List Byte)
    (hp : c.password.length + 14 < 1460) (hc : command.length + 14 < 1460)
    (hw : ∀ k, c.connection.writeCap = some k →
      (c.password.length + 14) + (command.length + 14) ≤ k)
    (hr : c.connection.reader.data = h1 ++ b1 ++ (h2 ++ b2 ++ rest))
    (hh1 : h1.length = 12) (hs1 : 10 ≤ (decodeHeader h1).Size)
    (hb1 : (b1.length : Int) = (decodeHeader h1).Size - 8)
    (hid1 : (decodeHeader h1).RequestID ≠ requestIDBadLogin)
    (hh2 : h2.length = 12) (hs2 : 10 ≤ (decodeHeader h2).Size)
    (hb2 : (b2.length : Int) = (decodeHeader h2).Size - 8)
    (hid2 : (decodeHeader h2).RequestID ≠ requestIDBadLogin) :
    ∃ pa pc, packetise packetTypeAuth c.password = .ret pa ∧
      packetise packetTypeCommand command = .ret pc ∧
      (SendCommand c command).1 = .ret (b2.take (b2.length - 2)) ∧
      (SendCommand c command).2.connection.written = c.connection.written ++ pa ++ pc ∧
      (SendCommand c command).2.connection.reader = ⟨rest, c.connection.reader.ending⟩ := by
  refine ⟨wire packetTypeAuth c.password, wire packetTypeCommand command,
    packetise_of_small _ _ hp, packetise_of_small _ _ hc, ?_⟩
  have hsp1 := sendPacket_complete c packetTypeAuth c.password h1 b1 (h2 ++ b2 ++ rest) hp
    (by intro k hk; have := hw k hk; omega) hr hh1 hs1 hb1
  have ha : authenticate c = (.ret (),
      { c with connection :=
          { reader := ⟨h2 ++ b2 ++ rest, c.connection.reader.ending⟩
            written := c.connection.written ++ wire packetTypeAuth c.password
            writeCap := c.connection.writeCap.map (fun k => k - (c.password.length + 14)) } }) := by
    unfold authenticate
    rw [hsp1]
    simp only
    rw [if_neg hid1]
  have hsp2 := sendPacket_complete
    { c with connection :=
        { reader := ⟨h2 ++ b2 ++ rest, c.connection.reader.ending⟩
          written := c.connection.written ++ wire packetTypeAuth c.password
          writeCap := c.connection.writeCap.map (fun k => k - (c.password.length + 14)) } }
    packetTypeCommand command h2 b2 rest hc
    (by
      intro k hk
      simp only [Option.map_eq_some'] at hk
      obtain ⟨k0, hk0, rfl⟩ := hk
      have := hw k0 hk0
      omega)
    rfl hh2 hs2 hb2
  unfold SendCommand
  rw [ha]
  simp only
  rw [hsp2]
  simp only
  rw [if_neg hid2]
  exact ⟨rfl, rfl, rfl⟩

theorem SendCommand_success_witness :
    ∃ pa pc, packetise packetTypeAuth answeredClient.password = .ret pa ∧
      packetise packetTypeCommand [108, 105, 115, 116] = .ret pc ∧
      (SendCommand answeredClient [108, 105, 115, 116]).1
        = .ret (([72, 101, 108, 108, 111, 44, 32, 119, 111, 114, 108, 100, 0, 0] :
            List Byte).take
          (([72, 101, 108, 108, 111, 44, 32, 119, 111, 114, 108, 100, 0, 0] :
            List Byte).length - 2)) ∧
      (SendCommand answeredClient [108, 105, 115, 116]).2.connection.written
        = answeredClient.connection.written ++ pa ++ pc ∧
      (SendCommand answeredClient [108, 105, 115, 116]).2.connection.reader
        = ⟨[], answeredClient.connection.reader.ending⟩ :=
  SendCommand_success answeredClient [108, 105, 115, 116]
    [10, 0, 0, 0, 0, 0, 0, 0, 2, 0, 0, 0] [0, 0]
    [22, 0, 0, 0, 1, 0, 0, 0, 0, 0, 0, 0]
    [72, 101, 108, 108, 111, 44, 32, 119, 111, 114, 108, 100, 0, 0] []
    (by decide) (by decide) (by intro k hk; cases hk) (by decide)
    (by decide) (by decide) (by decide) (by decide)
    (by decide) (by decide) (by decide) (by decide)

/-! ## Scenarios and effects on the connection -/

/-- A complete authentication exchange whose response does not carry the
bad-login request ID. -/
theorem authenticate_complete (c : Client) (hdr body rest : List Byte)
    (hp : c.password.length + 14 < 1460)
    (hw : ∀ k, c.connection.writeCap = some k → c.password.length + 14 ≤ k)
    (hr : c.connection.reader.data = hdr ++ body ++ rest)
    (hh : hdr.length = 12) (hs : 10 ≤ (decodeHeader hdr).Size)
    (hb : (body.length : Int) = (decodeHeader hdr).Size - 8)
    (hid : (decodeHeader hdr).RequestID ≠ requestIDBadLogin) :
    authenticate c =
      (.ret (),
        { c with connection :=
            { reader := ⟨rest, c.connection.reader.ending⟩
              written := c.connection.written ++ wire packetTypeAuth c.password
              writeCap := c.connection.writeCap.map (fun k => k - (c.password.length + 14)) } }) := by
  unfold authenticate
  rw [sendPacket_complete c packetTypeAuth c.password hdr body rest hp hw hr hh hs hb]
  simp only
  rw [if_neg hid]

/-- C11 (as stated, refuted): with the header `{size=22, requestID=1, packetType=0}`
in front of "There are 0 players" and two padding bytes, `SendCommand("list")`
returns the 12 bytes "There are 0 " and leaves "ayers" and the padding unread. -/
theorem list_scenario_counterexample :
    (decodeHeader listResponse22) = ⟨22, 1, 0⟩ ∧
      (SendCommand listClient22 listCommand).1
        = .ret [84, 104, 101, 114, 101, 32, 97, 114, 101, 32, 48, 32] ∧
      (SendCommand listClient22 listCommand).1 ≠ .ret playersText ∧
      (SendCommand listClient22 listCommand).2.connection.reader.data
        = [97, 121, 101, 114, 115, 0, 0] := by
  decide

/-- C11 (amended): when authentication has succeeded and the response to the
Command packet for "list" is the header `{size=29, requestID=1, packetType=0}`
followed by the bytes of "There are 0 players" and two zero padding bytes,
`SendCommand("list")` returns "There are 0 players". -/
theorem list_scenario (c : Client) (hdr body rest : List Byte)
    (hp : c.password.length + 14 < 1460)
    (hw : ∀ k, c.connection.writeCap = some k →
      (c.password.length + 14) + (listCommand.length + 14) ≤ k)
    (hr : c.connection.reader.data = hdr ++ body ++ (listResponse29 ++ rest))
    (hh : hdr.length = 12) (hs : 10 ≤ (decodeHeader hdr).Size)
    (hb : (body.length : Int) = (decodeHeader hdr).Size - 8)
    (hid : (decodeHeader hdr).RequestID ≠ requestIDBadLogin) :
    (SendCommand c listCommand).1 = .ret playersText ∧
      (SendCommand c listCommand).2.connection.reader.data = rest := by
  have ha := authenticate_complete c hdr body (listResponse29 ++ rest) hp
    (by intro k hk; have := hw k hk; omega) hr hh hs hb hid
  have hsp := sendPacket_complete
    { c with connection :=
        { reader := ⟨listResponse29 ++ rest, c.connection.reader.ending⟩
          written := c.connection.written ++ wire packetTypeAuth c.password
          writeCap := c.connection.writeCap.map (fun k => k - (c.password.length + 14)) } }
    packetTypeCommand listCommand [29, 0, 0, 0, 1, 0, 0, 0, 0, 0, 0, 0]
    (playersText ++ [0, 0]) rest (by decide)
    (by
      intro k hk
      simp only [Option.map_eq_some'] at hk
      obtain ⟨k0, hk0, rfl⟩ := hk
      have := hw k0 hk0
      omega)
    (by simp [listResponse29]) (by decide) (by decide) (by decide)
  have hd : decodeHeader [29, 0, 0, 0, 1, 0, 0, 0, 0, 0, 0, 0] = ⟨29, 1, 0⟩ := by decide
  have ht : (playersText ++ [0, 0]).take ((playersText ++ [0, 0]).length - 2) = playersText := by
    decide
  rw [hd, ht] at hsp
  unfold SendCommand
  rw [ha]
  simp only
  rw [hsp]
  simp only
  rw [if_neg (by decide)]
  exact ⟨rfl, rfl⟩

theorem list_scenario_witness :
    (SendCommand listClient29 listCommand).1 = .ret playersText ∧
      (SendCommand listClient29 listCommand).2.connection.reader.data = [] :=
  list_scenario listClient29 [10, 0, 0, 0, 0, 0, 0, 0, 2, 0, 0, 0] [0, 0] []
    (by decide) (by intro k hk; cases hk) (by decide) (by decide) (by decide) (by decide)
    (by decide)

/-- What a returning `depacketise` has read: 12 header bytes and then as many bytes
as the `int32` value `Size - 8` says, the payload being those without the last two. -/
theorem depacketise_ret (r r1 : Reader) (head : header) (payload : List Byte)
    (h : depacketise r = (.ret (head, payload), r1)) :
    ∃ hdr body, r.data = hdr ++ body ++ r1.data ∧ hdr.length = 12 ∧
      head = decodeHeader hdr ∧ (body.length : Int) = wrapInt32 (head.Size - 8) ∧
      2 ≤ body.length ∧ payload = body.take (body.length - 2) ∧ r1.ending = r.ending := by
  obtain ⟨data, e⟩ := r
  by_cases hl : data.length < 12
  · unfold depacketise at h
    rw [readFull_short data e 12 hl] at h
    simp at h
  · have hh : (data.take 12).length = 12 := by
      rw [List.length_take]
      omega
    have hsplit : data = data.take 12 ++ data.drop 12 := (List.take_append_drop 12 data).symm
    rw [hsplit, depacketise_after_header _ _ e hh] at h
    simp only at h
    by_cases hn : wrapInt32 ((decodeHeader (data.take 12)).Size - 8) < 0
    · rw [if_pos hn] at h
      simp at h
    · rw [if_neg hn] at h
      by_cases hk : (wrapInt32 ((decodeHeader (data.take 12)).Size - 8)).toNat
          ≤ (data.drop 12).length
      · have hrf : readFull ⟨data.drop 12, e⟩
            (wrapInt32 ((decodeHeader (data.take 12)).Size - 8)).toNat
            = (.ok ((data.drop 12).take
                (wrapInt32 ((decodeHeader (data.take 12)).Size - 8)).toNat),
               ⟨(data.drop 12).drop
                (wrapInt32 ((decodeHeader (data.take 12)).Size - 8)).toNat, e⟩) := by
          unfold readFull
          simp only
          rw [if_pos hk]
        rw [hrf] at h
        simp only at h
        have hbl : ((data.drop 12).take
            (wrapInt32 ((decodeHeader (data.take 12)).Size - 8)).toNat).length
            = (wrapInt32 ((decodeHeader (data.take 12)).Size - 8)).toNat := by
          rw [List.length_take]
          omega
        by_cases h2 : ((data.drop 12).take
            (wrapInt32 ((decodeHeader (data.take 12)).Size - 8)).toNat).length < 2
        · rw [if_pos h2] at h
          simp at h
        · rw [if_neg h2] at h
          simp only [Prod.mk.injEq, Outcome.ret.injEq] at h
          obtain ⟨⟨hhead, hpay⟩, hr1⟩ := h
          refine ⟨data.take 12, (data.drop 12).take
            (wrapInt32 ((decodeHeader (data.take 12)).Size - 8)).toNat, ?_, hh, hhead.symm,
            ?_, by omega, hpay.symm, ?_⟩
          · rw [← hr1]
            simp only
            rw [List.append_assoc, List.take_append_drop, List.take_append_drop]
          · rw [hbl, ← hhead]
            omega
          · rw [← hr1]
      · rw [readFull_short _ e _ (by omega)] at h
        simp at h

/-- What a returning `sendPacket` has done: the whole packet was written and one
response was decoded from the read side. -/
theorem sendPacket_ret (c c1 : Client) (t : Int) (p payload : List Byte) (head : header)
    (h : sendPacket c t p = (.ret (head, payload), c1)) :
    packetise t p = .ret (wire t p) ∧
      c1.password = c.password ∧
      c1.connection.written = c.connection.written ++ wire t p ∧
      depacketise c.connection.reader = (.ret (head, payload), c1.connection.reader) := by
  by_cases hs : p.length + 14 < 1460
  · refine ⟨packetise_of_small t p hs, ?_⟩
    unfold sendPacket at h
    rw [packetise_of_small t p hs] at h
    simp only at h
    cases hc : c.connection.writeCap with
    | none =>
      simp only [Conn.Write, hc] at h
      rcases hd : depacketise c.connection.reader with ⟨res, r1⟩
      rw [hd] at h
      simp only [Prod.mk.injEq] at h
      obtain ⟨hres, hc1⟩ := h
      rw [← hc1, hres]
      exact ⟨rfl, rfl, rfl⟩
    | some k =>
      by_cases hk : (wire t p).length ≤ k
      · simp only [Conn.Write, hc, hk, if_true] at h
        rcases hd : depacketise c.connection.reader with ⟨res, r1⟩
        rw [hd] at h
        simp only [Prod.mk.injEq] at h
        obtain ⟨hres, hc1⟩ := h
        rw [← hc1, hres]
        exact ⟨rfl, rfl, rfl⟩
      · simp [Conn.Write, hc, hk] at h
  · rw [sendPacket_of_large c t p (by omega)] at h
    simp at h
theorem authenticate_ret (c c1 : Client) (h : authenticate c = (.ret (), c1)) :
    ∃ head payload, sendPacket c packetTypeAuth c.password = (.ret (head, payload), c1) ∧
      head.RequestID ≠ requestIDBadLogin := by
  unfold authenticate at h
  rcases hsp : sendPacket c packetTypeAuth c.password with ⟨res, c2⟩
  rw [hsp] at h
  cases res with
  | panic e => simp at h
  | ret a =>
    obtain ⟨head, payload⟩ := a
    simp only at h
    by_cases hid : head.RequestID = requestIDBadLogin
    · rw [if_pos hid] at h
      simp at h
    · rw [if_neg hid] at h
      simp only [Prod.mk.injEq, true_and] at h
      exact ⟨head, payload, by rw [h], hid⟩

theorem SendCommand_ret (c c2 : Client) (command s : List Byte)
    (h : SendCommand c command = (.ret s, c2)) :
    ∃ c1 head, authenticate c = (.ret (), c1) ∧
      sendPacket c1 packetTypeCommand command = (.ret (head, s), c2) ∧
      head.RequestID ≠ requestIDBadLogin := by
  unfold SendCommand at h
  rcases ha : authenticate c with ⟨res, c1⟩
  rw [ha] at h
  cases res with
  | panic e => simp at h
  | ret u =>
    simp only at h
    rcases hsp : sendPacket c1 packetTypeCommand command with ⟨res2, c3⟩
    rw [hsp] at h
    cases res2 with
    | panic e => simp at h
    | ret a =>
      obtain ⟨head, payload⟩ := a
      simp only at h
      by_cases hid : head.RequestID = requestIDBadLogin
      · rw [if_pos hid] at h
        simp at h
      · rw [if_neg hid] at h
        simp only [Prod.mk.injEq, Outcome.ret.injEq] at h
        obtain ⟨hp, hc⟩ := h
        exact ⟨c1, head, rfl, by rw [hsp, hp, hc], hid⟩

/-- C12: when the decoded response to the Auth packet carries request ID -1,
`SendCommand` fails with the "BAD AUTH" panic, and the bytes it has written are
exactly the Auth packet `packetise(Auth, password)`: no byte of a Command packet
follows. -/
theorem failed_auth_sends_no_command (c c1 : Client) (command payload : List Byte)
    (head : header)
    (hsp : sendPacket c packetTypeAuth c.password = (.ret (head, payload), c1))
    (hid : head.RequestID = requestIDBadLogin) :
    (SendCommand c command).1 = .panic .badAuth ∧
      ∃ pa, packetise packetTypeAuth c.password = .ret pa ∧
        (SendCommand c command).2.connection.written = c.connection.written ++ pa := by
  obtain ⟨hpk, _, hwr, _⟩ := sendPacket_ret c c1 _ _ _ _ hsp
  have ha : authenticate c = (.panic .badAuth, c1) := by
    unfold authenticate
    rw [hsp]
    simp only
    rw [if_pos hid]
  have hc : SendCommand c command = (.panic .badAuth, c1) := by
    unfold SendCommand
    rw [ha]
  rw [hc]
  exact ⟨rfl, wire packetTypeAuth c.password, hpk, hwr⟩

theorem failed_auth_sends_no_command_witness :
    (SendCommand rejectedClient listCommand).1 = .panic .badAuth ∧
      ∃ pa, packetise packetTypeAuth rejectedClient.password = .ret pa ∧
        (SendCommand rejectedClient listCommand).2.connection.written
          = rejectedClient.connection.written ++ pa :=
  failed_auth_sends_no_command rejectedClient
    { password := [112, 119]
      connection := { reader := ⟨[], .eof⟩
                      written := [12, 0, 0, 0, 0, 0, 0, 0, 3, 0, 0, 0, 112, 119, 0, 0]
                      writeCap := none } }
    listCommand [110, 111] ⟨12, -1, 7⟩ (by decide) (by decide)

/-- The Auth packet for "pw" followed by the Command packet for "list" is not the
encoding of any single packet. -/
theorem auth_then_list_not_one_packet (t : Int) (p : List Byte) :
    packetise t p ≠ .ret ([12, 0, 0, 0, 0, 0, 0, 0, 3, 0, 0, 0, 112, 119, 0, 0]
          ++ [14, 0, 0, 0, 0, 0, 0, 0, 2, 0, 0, 0, 108, 105, 115, 116, 0, 0]) := by
  intro h
  by_cases hs : p.length + 14 < 1460
  · rw [packetise_of_small t p hs] at h
    injection h with h
    have hl := congrArg List.length h
    rw [wire_length] at hl
    have hp : p.length = 20 := by simpa using hl
    have h0 := congrArg List.head? h
    simp [wire, putInt32LE, byteAt, hp] at h0
  · rw [packetise_of_large t p (by omega)] at h
    cases h

/-- C13 (as stated, refuted): a successful `SendCommand("list")` on a fresh
connection has written two packets, the 16 bytes of the Auth packet followed by
the 18 bytes of the Command packet, and has read two response packets, the 14
bytes of the first and the 26 bytes of the second; the bytes written are not the
encoding of one packet. -/
theorem one_round_trip_counterexample :
    (SendCommand answeredClient listCommand).1
        = .ret [72, 101, 108, 108, 111, 44, 32, 119, 111, 114, 108, 100] ∧
      packetise packetTypeAuth answeredClient.password
        = .ret [12, 0, 0, 0, 0, 0, 0, 0, 3, 0, 0, 0, 112, 119, 0, 0] ∧
      packetise packetTypeCommand listCommand
        = .ret [14, 0, 0, 0, 0, 0, 0, 0, 2, 0, 0, 0, 108, 105, 115, 116, 0, 0] ∧
      answeredClient.connection.written = [] ∧
      (SendCommand answeredClient listCommand).2.connection.written
        = [12, 0, 0, 0, 0, 0, 0, 0, 3, 0, 0, 0, 112, 119, 0, 0]
          ++ [14, 0, 0, 0, 0, 0, 0, 0, 2, 0, 0, 0, 108, 105, 115, 116, 0, 0] ∧
      answeredClient.connection.reader.data = emptyResponse ++ helloResponse ∧
      (depacketise ⟨emptyResponse ++ helloResponse, .eof⟩).2 = ⟨helloResponse, .eof⟩ ∧
      (depacketise ⟨helloResponse, .eof⟩).2 = ⟨[], .eof⟩ ∧
      (SendCommand answeredClient listCommand).2.connection.reader.data = [] ∧
      ∀ t p, packetise t p ≠ .ret (SendCommand answeredClient listCommand).2.connection.written := by
  have hw : (SendCommand answeredClient listCommand).2.connection.written
      = [12, 0, 0, 0, 0, 0, 0, 0, 3, 0, 0, 0, 112, 119, 0, 0]
        ++ [14, 0, 0, 0, 0, 0, 0, 0, 2, 0, 0, 0, 108, 105, 115, 116, 0, 0] := by decide
  refine ⟨by decide, by decide, by decide, by decide, hw, by decide, by decide, by decide,
    by decide, ?_⟩
  intro t p
  rw [hw]
  exact auth_then_list_not_one_packet t p

/-- C13 (amended): every successful `SendCommand` call consumes exactly two
request/response round trips on the connection: it writes the Auth packet and then
the Command packet, and it reads two response packets, one after each, the second
of which carries the returned string. -/
theorem two_round_trips (c c2 : Client) (command s : List Byte)
    (h : SendCommand c command = (.ret s, c2)) :
    ∃ pa pc head1 payload1 head2 mid,
      packetise packetTypeAuth c.password = .ret pa ∧
      packetise packetTypeCommand command = .ret pc ∧
      c2.connection.written = c.connection.written ++ pa ++ pc ∧
      depacketise c.connection.reader = (.ret (head1, payload1), mid) ∧
      depacketise mid = (.ret (head2, s), c2.connection.reader) := by
  obtain ⟨c1, head2, ha, hsp2, _⟩ := SendCommand_ret c c2 command s h
  obtain ⟨head1, payload1, hsp1, _⟩ := authenticate_ret c c1 ha
  obtain ⟨hpa, _, hw1, hd1⟩ := sendPacket_ret c c1 _ _ _ _ hsp1
  obtain ⟨hpc, _, hw2, hd2⟩ := sendPacket_ret c1 c2 _ _ _ _ hsp2
  refine ⟨wire packetTypeAuth c.password, wire packetTypeCommand command, head1, payload1,
    head2, c1.connection.reader, hpa, hpc, ?_, hd1, hd2⟩
  rw [hw2, hw1]

theorem two_round_trips_witness :
    ∃ pa pc head1 payload1 head2 mid,
      packetise packetTypeAuth answeredClient.password = .ret pa ∧
      packetise packetTypeCommand listCommand = .ret pc ∧
      (SendCommand answeredClient listCommand).2.connection.written
        = answeredClient.connection.written ++ pa ++ pc ∧
      depacketise answeredClient.connection.reader = (.ret (head1, payload1), mid) ∧
      depacketise mid
        = (.ret (head2, [72, 101, 108, 108, 111, 44, 32, 119, 111, 114, 108, 100]),
            (SendCommand answeredClient listCommand).2.connection.reader) :=
  two_round_trips answeredClient (SendCommand answeredClient listCommand).2 listCommand
    [72, 101, 108, 108, 111, 44, 32, 119, 111, 114, 108, 100] (by decide)

/-! ## Failure handling -/

theorem sendPacket_write_fails (c : Client) (t : Int) (p : List Byte) (k : Nat)
    (hp : p.length + 14 < 1460) (hc : c.connection.writeCap = some k)
    (hk : k < p.length + 14) :
    (sendPacket c t p).1 = .panic .writeFail := by
  have hl := wire_length t p
  unfold sendPacket
  rw [packetise_of_small t p hp]
  simp only [Conn.Write, hc]
  rw [if_neg (by omega)]

theorem sendPacket_reads (c : Client) (t : Int) (p : List Byte)
    (hp : p.length + 14 < 1460)
    (hw : ∀ k, c.connection.writeCap = some k → p.length + 14 ≤ k) :
    (sendPacket c t p).1 = (depacketise c.connection.reader).1 := by
  have hwr := Conn.Write_accepts c.connection (wire t p)
    (by intro k hk; rw [wire_length]; exact hw k hk)
  unfold sendPacket
  rw [packetise_of_small t p hp]
  simp only
  rw [hwr]

theorem SendCommand_auth_panic (c : Client) (command : List Byte) (p : Panic)
    (h : (sendPacket c packetTypeAuth c.password).1 = .panic p) :
    (SendCommand c command).1 = .panic p := by
  unfold SendCommand authenticate
  rcases hsp : sendPacket c packetTypeAuth c.password with ⟨res, c1⟩
  rw [hsp] at h
  simp only at h
  rw [h]

theorem SendCommand_command_panic (c c1 : Client) (command : List Byte) (p : Panic)
    (ha : authenticate c = (.ret (), c1))
    (h : (sendPacket c1 packetTypeCommand command).1 = .panic p) :
    (SendCommand c command).1 = .panic p := by
  unfold SendCommand
  rw [ha]
  simp only
  rcases hsp : sendPacket c1 packetTypeCommand command with ⟨res, c2⟩
  rw [hsp] at h
  simp only at h
  rw [h]

/-- C14 (as stated, refuted): a write failure, a stream that closes without an
answer, an oversized command and the bad-login request ID each make `SendCommand`
end in a panic. -/
theorem no_abort_counterexample :
    (SendCommand blockedClient listCommand).1 = .panic .writeFail ∧
      (SendCommand blockedClient listCommand).1.isPanic = true ∧
      (SendCommand silentClient listCommand).1 = .panic (.readErr .EOF) ∧
      (SendCommand silentClient listCommand).1.isPanic = true ∧
      (SendCommand rejectedClient listCommand).1 = .panic .badAuth ∧
      (SendCommand rejectedClient listCommand).1.isPanic = true ∧
      (SendCommand freshClient (List.replicate 1450 0)).1 = .panic .packetTooBig ∧
      (SendCommand freshClient (List.replicate 1450 0)).1.isPanic = true := by
  have hl : (List.replicate 1450 (0 : Byte)).length = 1450 := List.length_replicate _ _
  have ha : (authenticate freshClient).1 = .ret () := by decide
  have hbig := (SendCommand_of_large freshClient (List.replicate 1450 0) (by omega)).2.2 ha
  refine ⟨by decide, by decide, by decide, by decide, by decide, by decide, hbig, ?_⟩
  rw [hbig]
  rfl

/-- Outcome of `depacketise` on a stream that ends inside the 12 header bytes, or
inside the `size - 8` bytes that a complete header with `size >= 10` announces. -/
theorem depacketise_short_outcome (r : Reader)
    (h : r.data.length < 12 ∨
      (10 ≤ (decodeHeader (r.data.take 12)).Size ∧
        (r.data.length : Int) - 12 < (decodeHeader (r.data.take 12)).Size - 8)) :
    (depacketise r).1 = .panic (.readErr
      (shortErr r.ending (if r.data.length < 12 then r.data.length
        else r.data.length - 12))) := by
  obtain ⟨data, e⟩ := r
  simp only at h ⊢
  by_cases hl : data.length < 12
  · rw [if_pos hl]
    unfold depacketise
    rw [readFull_short data e 12 hl]
  · rw [if_neg hl]
    rcases h with h | ⟨hs, hr⟩
    · exact absurd h hl
    · have hh : (data.take 12).length = 12 := by
        rw [List.length_take]
        omega
      have hd : (data.drop 12).length = data.length - 12 := List.length_drop _ _
      have hi := decodeHeader_Size_isInt32 (data.take 12)
      unfold isInt32 at hi
      have hsplit : data = data.take 12 ++ data.drop 12 := (List.take_append_drop 12 data).symm
      rw [hsplit, depacketise_after_header _ _ e hh, ← hsplit]
      generalize decodeHeader (data.take 12) = head at hs hr hi
      obtain ⟨s, rid, pt⟩ := head
      simp only at hs hr hi ⊢
      have hw : wrapInt32 (s - 8) = s - 8 := by unfold wrapInt32; omega
      rw [hw, if_neg (by omega), readFull_short (data.drop 12) e _ (by omega), hd]

theorem authenticate_of_sendPacket_panic (c : Client) (e : Panic)
    (h : (sendPacket c packetTypeAuth c.password).1 = .panic e) :
    (authenticate c).1 = .panic e := by
  unfold authenticate
  rcases hsp : sendPacket c packetTypeAuth c.password with ⟨res, c1⟩
  rw [hsp] at h
  simp only at h
  rw [h]

theorem SendCommand_of_authenticate_panic (c : Client) (command : List Byte) (e : Panic)
    (h : (authenticate c).1 = .panic e) :
    (SendCommand c command).1 = .panic e := by
  unfold SendCommand
  rcases ha : authenticate c with ⟨res, c1⟩
  rw [ha] at h
  simp only at h
  rw [h]

/-- C14 (amended): every failure ends in a panic, never in an error value, and a
string is returned only when nothing failed. An encoded packet of 1460 bytes or
more makes `packetise` panic with "Packet too big when packetising." and
`sendPacket` with it, before any write; a refused write makes `sendPacket` panic
with "WRITE FAIL"; otherwise `sendPacket` ends as `depacketise` does, which panics
with the read error when the stream ends inside the header or inside the
`size - 8` bytes after it. `authenticate` ends in the panic of its `sendPacket`,
or in "BAD AUTH" when the response has request ID -1. `SendCommand` ends in the
panic of `authenticate` or of the Command exchange, or in "NO AITH" when the
Command response has request ID -1, and otherwise returns the payload; whenever it
returns a string, both exchanges returned and neither response had request ID -1. -/
theorem failures_end_in_panic (c : Client) (t : Int) (p command : List Byte) (r : Reader) :
    (1460 ≤ p.length + 14 →
        packetise t p = .panic .packetTooBig ∧
        sendPacket c t p = (.panic .packetTooBig, c)) ∧
      (p.length + 14 < 1460 → ∀ k, c.connection.writeCap = some k → k < p.length + 14 →
        (sendPacket c t p).1 = .panic .writeFail) ∧
      (p.length + 14 < 1460 → (∀ k, c.connection.writeCap = some k → p.length + 14 ≤ k) →
        (sendPacket c t p).1 = (depacketise c.connection.reader).1) ∧
      (r.data.length < 12 ∨
          (10 ≤ (decodeHeader (r.data.take 12)).Size ∧
            (r.data.length : Int) - 12 < (decodeHeader (r.data.take 12)).Size - 8) →
        (depacketise r).1 = .panic (.readErr
          (shortErr r.ending (if r.data.length < 12 then r.data.length
            else r.data.length - 12)))) ∧
      (∀ e, (sendPacket c packetTypeAuth c.password).1 = .panic e →
        (authenticate c).1 = .panic e) ∧
      (∀ head payload c1,
        sendPacket c packetTypeAuth c.password = (.ret (head, payload), c1) →
        authenticate c
          = (if head.RequestID = requestIDBadLogin then .panic .badAuth else .ret (), c1)) ∧
      (∀ e, (authenticate c).1 = .panic e → (SendCommand c command).1 = .panic e) ∧
      (∀ c1 e, authenticate c = (.ret (), c1) →
        (sendPacket c1 packetTypeCommand command).1 = .panic e →
        (SendCommand c command).1 = .panic e) ∧
      (∀ c1 head payload c2, authenticate c = (.ret (), c1) →
        sendPacket c1 packetTypeCommand command = (.ret (head, payload), c2) →
        SendCommand c command
          = (if head.RequestID = requestIDBadLogin then .panic .noAith else .ret payload,
              c2)) ∧
      (∀ s c2, SendCommand c command = (.ret s, c2) →
        ∃ c1 head1 payload1 head2,
          sendPacket c packetTypeAuth c.password = (.ret (head1, payload1), c1) ∧
          head1.RequestID ≠ requestIDBadLogin ∧
          sendPacket c1 packetTypeCommand command = (.ret (head2, s), c2) ∧
          head2.RequestID ≠ requestIDBadLogin) := by
  refine ⟨?_, ?_, ?_, ?_, ?_, ?_, ?_, ?_, ?_, ?_⟩
  · intro h
    exact ⟨packetise_of_large t p h, sendPacket_of_large c t p h⟩
  · intro hp k hc hk
    exact sendPacket_write_fails c t p k hp hc hk
  · intro hp hw
    exact sendPacket_reads c t p hp hw
  · intro h
    exact depacketise_short_outcome r h
  · intro e h
    exact authenticate_of_sendPacket_panic c e h
  · intro head payload c1 hsp
    unfold authenticate
    rw [hsp]
    simp only
    by_cases hid : head.RequestID = requestIDBadLogin
    · rw [if_pos hid, if_pos hid]
    · rw [if_neg hid, if_neg hid]
  · intro e h
    exact SendCommand_of_authenticate_panic c command e h
  · intro c1 e ha h
    exact SendCommand_command_panic c c1 command e ha h
  · intro c1 head payload c2 ha hsp
    unfold SendCommand
    rw [ha]
    simp only
    rw [hsp]
    simp only
    by_cases hid : head.RequestID = requestIDBadLogin
    · rw [if_pos hid, if_pos hid]
    · rw [if_neg hid, if_neg hid]
  · intro s c2 h
    obtain ⟨c1, head2, ha, hsp2, hid2⟩ := SendCommand_ret c c2 command s h
    obtain ⟨head1, payload1, hsp1, hid1⟩ := authenticate_ret c c1 ha
    exact ⟨c1, head1, payload1, head2, hsp1, hid1, hsp2, hid2⟩

theorem failures_end_in_panic_witness :
    (sendPacket blockedClient packetTypeAuth [112, 119]).1 = .panic .writeFail ∧
      (depacketise truncatedReader).1 = .panic (.readErr .ErrUnexpectedEOF) ∧
      (SendCommand silentClient listCommand).1 = .panic (.readErr .EOF) ∧
      authenticate rejectedClient
        = (.panic .badAuth,
            { password := [112, 119]
              connection := { reader := ⟨[], .eof⟩
                              written := [12, 0, 0, 0, 0, 0, 0, 0, 3, 0, 0, 0, 112, 119, 0, 0]
                              writeCap := none } }) ∧
      (SendCommand staleClient listCommand).1 = .panic .noAith :=
  ⟨(failures_end_in_panic blockedClient packetTypeAuth [112, 119] listCommand
      truncatedReader).2.1 (by decide) 5 rfl (by decide),
    (failures_end_in_panic blockedClient packetTypeAuth [112, 119] listCommand
      truncatedReader).2.2.2.1 (Or.inr (by decide)),
    (failures_end_in_panic silentClient packetTypeAuth [112, 119] listCommand
      truncatedReader).2.2.2.2.2.2.1 _ (by decide),
    ((failures_end_in_panic rejectedClient packetTypeAuth [112, 119] listCommand
      truncatedReader).2.2.2.2.2.1 ⟨12, -1, 7⟩ [110, 111]
      { password := [112, 119]
        connection := { reader := ⟨[], .eof⟩
                        written := [12, 0, 0, 0, 0, 0, 0, 0, 3, 0, 0, 0, 112, 119, 0, 0]
                        writeCap := none } }
      (by decide)).trans (by decide),
    (congrArg Prod.fst
      ((failures_end_in_panic staleClient packetTypeAuth [112, 119] listCommand
        truncatedReader).2.2.2.2.2.2.2.2.1
        { password := [112, 119]
          connection := { reader := ⟨badLoginResponse, .eof⟩
                          written := [12, 0, 0, 0, 0, 0, 0, 0, 3, 0, 0, 0, 112, 119, 0, 0]
                          writeCap := none } }
        ⟨12, -1, 7⟩ [110, 111]
        { password := [112, 119]
          connection := { reader := ⟨[], .eof⟩
                          written := [12, 0, 0, 0, 0, 0, 0, 0, 3, 0, 0, 0, 112, 119, 0, 0,
                            14, 0, 0, 0, 0, 0, 0, 0, 2, 0, 0, 0, 108, 105, 115, 116, 0, 0]
                          writeCap := none } }
        (by decide) (by decide))).trans (by decide)⟩

/-! ## Framing and padding -/

/-- Framing of a returning `depacketise` whose declared size is not so negative
that `Size - 8` leaves the `int32` range: the size is at least 10 and exactly
`4 + Size` bytes were taken from the front of the stream. -/
theorem depacketise_frames (r r1 : Reader) (head : header) (payload : List Byte)
    (h : depacketise r = (.ret (head, payload), r1))
    (hs : -2147483640 ≤ head.Size) :
    10 ≤ head.Size ∧ r1.ending = r.ending ∧
      ∃ used, r.data = used ++ r1.data ∧ (used.length : Int) = 4 + head.Size := by
  obtain ⟨hdr, body, hd, hh, hhead, hb, h2, _, he⟩ := depacketise_ret r r1 head payload h
  have hi : isInt32 head.Size := by
    rw [hhead]
    exact decodeHeader_Size_isInt32 hdr
  unfold isInt32 at hi
  have hw : wrapInt32 (head.Size - 8) = head.Size - 8 :=
    wrapInt32_of_isInt32 _ (by unfold isInt32; omega)
  rw [hw] at hb
  refine ⟨by omega, he, hdr ++ body, hd, ?_⟩
  rw [List.length_append, hh]
  push_cast
  omega

/-- Decoding an encoded packet followed by further bytes returns the payload and
leaves exactly those further bytes. -/
theorem depacketise_wire_append (t : Int) (p rest : List Byte) (e : Ending)
    (h : p.length + 14 < 1460) :
    ∃ head, depacketise ⟨wire t p ++ rest, e⟩ = (.ret (head, p), ⟨rest, e⟩) := by
  have hsz : (decodeHeader (putInt32LE ((p.length : Int) + 10) ++ putInt32LE 0
      ++ putInt32LE t)).Size = (p.length : Int) + 10 := by
    unfold decodeHeader
    simp only
    rw [List.append_assoc, getInt32LE_putInt32LE _ _ (by unfold isInt32; omega)]
  have key := depacketise_complete
    (putInt32LE ((p.length : Int) + 10) ++ putInt32LE 0 ++ putInt32LE t) (p ++ [0, 0]) rest e
    (by simp [putInt32LE_length]) (by rw [hsz]; omega) (by rw [hsz]; simp; omega)
  refine ⟨decodeHeader (putInt32LE ((p.length : Int) + 10) ++ putInt32LE 0
      ++ putInt32LE t), ?_⟩
  have hw : wire t p ++ rest
      = putInt32LE ((p.length : Int) + 10) ++ putInt32LE 0 ++ putInt32LE t
        ++ (p ++ [0, 0]) ++ rest := by
    simp [wire]
  rw [hw, key]
  simp

/-- Behaviour of `depacketise` on a 12-byte header followed by as many bytes as the
`int32` value `Size - 8` says, at least two. -/
theorem depacketise_body (hdr body rest : List Byte) (e : Ending)
    (hh : hdr.length = 12)
    (hb : (body.length : Int) = wrapInt32 ((decodeHeader hdr).Size - 8))
    (h2 : 2 ≤ body.length) :
    depacketise ⟨hdr ++ body ++ rest, e⟩ =
      (.ret (decodeHeader hdr, body.take (body.length - 2)), ⟨rest, e⟩) := by
  have h1 : readFull ⟨hdr ++ body ++ rest, e⟩ 12 = (.ok hdr, ⟨body ++ rest, e⟩) := by
    rw [← hh, List.append_assoc]
    exact readFull_append hdr (body ++ rest) e
  unfold depacketise
  rw [h1]
  simp only [← hb, Int.toNat_ofNat, readFull_append]
  have : ¬ ((body.length : Int) < 0) := by omega
  have h3 : ¬ (body.length < 2) := by omega
  simp [this, h3]

theorem wrapHeader_decodes : decodeHeader wrapHeader = ⟨-2147483648, 0, 0⟩ := by
  decide

theorem wrapHeader_body_length :
    ((List.replicate 2147483640 (0 : Byte)).length : Int)
      = wrapInt32 ((decodeHeader wrapHeader).Size - 8) := by
  rw [List.length_replicate, wrapHeader_decodes]
  decide

theorem wrapStream_payload :
    (List.replicate 2147483640 (0 : Byte)).take
        ((List.replicate 2147483640 (0 : Byte)).length - 2)
      = List.replicate 2147483638 0 := by
  have hm : min (2147483640 - 2) 2147483640 = 2147483638 := by omega
  rw [List.length_replicate, List.take_replicate, hm]

theorem wrapStream_decodes :
    depacketise ⟨wrapStream, .eof⟩
      = (.ret (⟨-2147483648, 0, 0⟩, List.replicate 2147483638 0), ⟨[7], .eof⟩) := by
  have key := depacketise_body wrapHeader (List.replicate 2147483640 0) [7] .eof
    (by decide) wrapHeader_body_length (by rw [List.length_replicate]; omega)
  rw [wrapStream_payload, wrapHeader_decodes, List.append_assoc] at key
  exact key

theorem wrapStream_length : wrapStream.length = 2147483652 + ([7] : List Byte).length := by
  unfold wrapStream
  rw [List.length_append, List.length_append, List.length_replicate]
  have h12 : wrapHeader.length = 12 := by decide
  rw [h12]
  omega

/-- C15 (the code at the failing input): on the header declaring size -2147483648
followed by 2147483640 zero bytes and a byte 7, `depacketise` returns a payload of
2147483638 bytes and leaves only the byte 7: it has consumed 2147483652 bytes,
not `4 + size`. -/
theorem framing_wraparound :
    (decodeHeader wrapHeader).Size = -2147483648 ∧
      depacketise ⟨wrapStream, .eof⟩
        = (.ret (⟨-2147483648, 0, 0⟩, List.replicate 2147483638 0), ⟨[7], .eof⟩) ∧
      wrapStream.length = 2147483652 + ([7] : List Byte).length ∧
      ((2147483652 : Nat) : Int) ≠ 4 + (decodeHeader wrapHeader).Size := by
  refine ⟨by rw [wrapHeader_decodes], wrapStream_decodes, wrapStream_length, ?_⟩
  rw [wrapHeader_decodes]
  decide

/-- C16: on a 12-byte header declaring a size of at least 10, followed by the
`size - 10` payload bytes, two further bytes and anything else, `depacketise`
returns the decoded header and the payload bytes, whatever the values of the two
bytes that close the region; other values for them give the same result. -/
theorem padding_not_validated (hdr p rest : List Byte) (e : Ending) (x y x1 y1 : Byte)
    (hh : hdr.length = 12) (hs : 10 ≤ (decodeHeader hdr).Size)
    (hp : (p.length : Int) = (decodeHeader hdr).Size - 10) :
    depacketise ⟨hdr ++ (p ++ [x, y]) ++ rest, e⟩
        = (.ret (decodeHeader hdr, p), ⟨rest, e⟩) ∧
      depacketise ⟨hdr ++ (p ++ [x, y]) ++ rest, e⟩
        = depacketise ⟨hdr ++ (p ++ [x1, y1]) ++ rest, e⟩ := by
  have key : ∀ a b : Byte, depacketise ⟨hdr ++ (p ++ [a, b]) ++ rest, e⟩
      = (.ret (decodeHeader hdr, p), ⟨rest, e⟩) := by
    intro a b
    have hl : (p ++ [a, b]).length = p.length + 2 := by simp
    rw [depacketise_complete hdr (p ++ [a, b]) rest e hh hs (by rw [hl]; push_cast; omega),
      hl, Nat.add_sub_cancel, List.take_left]
  exact ⟨key x y, by rw [key x y, key x1 y1]⟩

theorem padding_not_validated_witness :
    depacketise ⟨[12, 0, 0, 0, 1, 0, 0, 0, 0, 0, 0, 0] ++ ([111, 107] ++ [255, 9]) ++ [5], .eof⟩
        = (.ret (decodeHeader [12, 0, 0, 0, 1, 0, 0, 0, 0, 0, 0, 0], [111, 107]),
            ⟨[5], .eof⟩) ∧
      depacketise ⟨[12, 0, 0, 0, 1, 0, 0, 0, 0, 0, 0, 0] ++ ([111, 107] ++ [255, 9]) ++ [5], .eof⟩
        = depacketise
            ⟨[12, 0, 0, 0, 1, 0, 0, 0, 0, 0, 0, 0] ++ ([111, 107] ++ [0, 0]) ++ [5], .eof⟩ :=
  padding_not_validated [12, 0, 0, 0, 1, 0, 0, 0, 0, 0, 0, 0] [111, 107] [5] .eof 255 9 0 0
    (by decide) (by decide) (by decide)

end Mcgorcon
